import Mathlib

/-!
Verification of the carrier-integration service (UPS rating client).

This file gives a shallow embedding, in Lean 4, of the parts of the
TypeScript repository that the checked properties talk about:

* the JS primitives the code relies on (string truthiness, parseInt,
  parseFloat) — modelled on the decimal fragment the code exercises;
* the domain error taxonomy (src/domain/errors.ts);
* the UPS wire structures for rated shipments (src/carriers/ups/ups-types.ts)
  restricted to the fields the mappers read;
* the parser helpers (ups-parser.ts): safeParseFloat, safeParseInt,
  parseUPSDate, extractMonetaryValue, extractCurrency;
* the validator helpers (ups-validator.ts): validateAndMapServiceLevel,
  validateRatedShipmentCharges, validateTokenResponse;
* both versions of the response mapper mapUPSRatedShipmentToQuote — the
  naive one (the plain ups-mapper.ts) and the validating one (the mapper
  built on ups-parser/ups-validator);
* the token manager (ups-auth.ts) as a small state machine with explicit
  call and resolve events, whose interleaving points correspond to the
  `await` points of the JS code;
* the error transformation of the base carrier (base-carrier.ts);
* the aggregate getAllRates of the carrier service (carrier-service.ts).

JS `number` values that can be NaN are modelled as `Option ℚ` (`none` = NaN);
JS `undefined` string fields as `Option String`.  Times are rationals in
milliseconds, as in `Date.now()`.
-/

/-! ## JS primitive models -/

/-- Truthiness of a possibly-undefined JS string: `undefined` and the empty
string are falsy, every other string is truthy. -/
def truthyStr : Option String → Bool
  | some s => !s.isEmpty
  | none => false

/-- JS `a || b` on possibly-undefined strings: yields `a` when truthy,
otherwise `b`. -/
def jsOrStr (a b : Option String) : Option String :=
  if truthyStr a then a else b

/-- Whitespace skipped by JS numeric parsing. -/
def isJsSpace (c : Char) : Bool :=
  c = ' ' ∨ c = '\t' ∨ c = '\n' ∨ c = '\r'

/-- Value of a non-empty leading run of decimal digits; `none` when the list
does not start with a digit (JS parseInt would yield NaN). -/
def digitsPrefixVal (cs : List Char) : Option Nat :=
  let ds := cs.takeWhile Char.isDigit
  if ds.isEmpty then none
  else some (ds.foldl (fun acc c => acc * 10 + (c.toNat - 48)) 0)

/-- Model of JS `parseInt(s, 10)`: skip leading whitespace, read an optional
sign and then the longest digit prefix; `none` models NaN (no digits). -/
def jsParseInt (s : String) : Option Int :=
  match s.toList.dropWhile isJsSpace with
  | '-' :: rest => (digitsPrefixVal rest).map (fun n => -(n : Int))
  | '+' :: rest => (digitsPrefixVal rest).map (fun n => (n : Int))
  | t => (digitsPrefixVal t).map (fun n => (n : Int))

/-- Exact value of a digit list read as an integer part. -/
def digitsVal (ds : List Char) : ℚ :=
  ds.foldl (fun acc c => acc * 10 + ((c.toNat - 48 : ℕ) : ℚ)) 0

/-- Exact value of a digit list read as a fractional part (digits after the
decimal point). -/
def fracVal (ds : List Char) : ℚ :=
  ds.foldr (fun c acc => (((c.toNat - 48 : ℕ) : ℚ) + acc) / 10) 0

/-- Leading decimal literal of a character list: `digits [. digits]` or
`. digits`; `none` when no digit is found (NaN).  Trailing characters are
ignored, as in JS. -/
def decPrefixVal (cs : List Char) : Option ℚ :=
  let intPart := cs.takeWhile Char.isDigit
  let rest := cs.dropWhile Char.isDigit
  match rest with
  | '.' :: rest2 =>
      let fracPart := rest2.takeWhile Char.isDigit
      if intPart.isEmpty ∧ fracPart.isEmpty then none
      else some (digitsVal intPart + fracVal fracPart)
  | _ => if intPart.isEmpty then none else some (digitsVal intPart)

/-- Model of JS `parseFloat` on the plain decimal-literal fragment the code
exercises (the monetary strings are schema-constrained to digits and an
optional point): whitespace, optional sign, leading decimal literal; `none`
models NaN.  Exponents, `Infinity` and hex forms never occur here and are
not modelled. -/
def jsParseFloat (s : String) : Option ℚ :=
  match s.toList.dropWhile isJsSpace with
  | '-' :: rest => (decPrefixVal rest).map (fun q => -q)
  | '+' :: rest => decPrefixVal rest
  | t => decPrefixVal t

/-- Rendering of a rational used inside error messages (stands in for JS
number printing; the messages' numeric payloads are not inspected by any
property below). -/
def ratRepr (q : ℚ) : String :=
  toString q.num ++ (if q.den = 1 then ("") else ("/") ++ toString q.den)

/-! ## Error taxonomy (src/domain/errors.ts) -/

/-- Domain errors of the service, by kind.  `rateLimit` carries the
`retryAfter` field: the outer `Option` is JS `undefined`, the inner one is
NaN from `parseInt`.  `plain` models a bare `Error` (used by the carrier
service for its own failures). -/
inductive CarrierErr where
  | validation (message : String)
  | authentication (message : String)
  | rateLimit (message : String) (retryAfter : Option (Option Int))
  | network (message : String)
  | carrierAPI (message : String) (statusCode : Nat)
  | plain (message : String)
deriving Repr, DecidableEq

/-- A JS runtime abort (TypeError from reading a property of undefined);
only the naive mapper can produce one. -/
inductive JsAbort where
  | typeError (message : String)
deriving Repr, DecidableEq

/-! ## UPS wire structures (ups-types.ts), fields read by the mappers -/

structure UPSMonetary where
  CurrencyCode : String
  MonetaryValue : String
deriving Repr, DecidableEq

structure UPSNegotiatedRateCharges where
  TotalCharge : Option UPSMonetary
deriving Repr, DecidableEq

structure UPSServiceField where
  Code : String
  Description : Option String
deriving Repr, DecidableEq

structure UPSGuaranteedDelivery where
  BusinessDaysInTransit : Option String
deriving Repr, DecidableEq

structure UPSArrival where
  Date : Option String
  Time : Option String
deriving Repr, DecidableEq

structure UPSEstimatedArrival where
  Arrival : UPSArrival
deriving Repr, DecidableEq

structure UPSServiceSummary where
  EstimatedArrival : Option UPSEstimatedArrival
  BusinessDaysInTransit : Option String
deriving Repr, DecidableEq

structure UPSTimeInTransit where
  ServiceSummary : UPSServiceSummary
deriving Repr, DecidableEq

/-- One rated shipment, restricted to the fields either mapper reads.
`TotalCharges` is optional here because the runtime value may lack it (the
TS type requires it, but `validateRatedShipmentCharges` defends against its
absence, and the claims quantify over that case). -/
structure UPSRatedShipment where
  Service : UPSServiceField
  TotalCharges : Option UPSMonetary
  NegotiatedRateCharges : Option UPSNegotiatedRateCharges
  GuaranteedDelivery : Option UPSGuaranteedDelivery
  TimeInTransit : Option UPSTimeInTransit
deriving Repr, DecidableEq

/-- Domain rate quote (src/domain/rate.ts).  `serviceLevel` is a plain
string because the naive mapper's unchecked cast can put a non-enum value
there.  `totalCharge` is a JS number (`none` = NaN); `transitDays` is
`undefined` or a JS number. -/
structure RateQuote where
  carrier : String
  serviceLevel : String
  serviceName : String
  totalCharge : Option ℚ
  currency : String
  estimatedDeliveryDate : Option String
  transitDays : Option (Option Int)
  guaranteedDelivery : Bool
deriving Repr, DecidableEq

structure RateResponse where
  quotes : List RateQuote
  requestId : Option String
deriving Repr, DecidableEq

/-- Fixed UPS service-code lookup table (UPS_SERVICE_CODES in ups-types.ts);
`none` models a JS `undefined` record lookup. -/
def UPS_SERVICE_CODES : String → Option String
  | "03" => some ("GROUND")
  | "12" => some ("NEXT_DAY_AIR")
  | "01" => some ("NEXT_DAY_AIR")
  | "14" => some ("NEXT_DAY_AIR_EARLY")
  | "13" => some ("NEXT_DAY_AIR_SAVER")
  | "02" => some ("2ND_DAY_AIR")
  | "59" => some ("2ND_DAY_AIR")
  | "11" => some ("STANDARD")
  | _ => none

/-- The valid service levels listed in validateAndMapServiceLevel (the
domain ServiceLevel enum). -/
def validServiceLevels : List String :=
  [("GROUND"), ("EXPRESS"), ("EXPRESS_SAVER"), ("NEXT_DAY_AIR"),
   ("NEXT_DAY_AIR_EARLY"), ("2ND_DAY_AIR"), ("3_DAY_SELECT"), ("STANDARD")]

/-! ## Parser helpers (ups-parser.ts) -/

/-- safeParseFloat: missing / NaN / negative input is a field-named
validation error. -/
def safeParseFloat (value : Option String) (fieldName : String) : Except CarrierErr ℚ :=
  match value with
  | none => .error (.validation (fieldName ++ (" is missing")))
  | some v =>
    match jsParseFloat v with
    | none => .error (.validation (fieldName ++ (" is not a valid number: ") ++ v))
    | some parsed =>
      if parsed < 0 then
        .error (.validation (fieldName ++ (" cannot be negative: ") ++ ratRepr parsed))
      else .ok parsed

/-- safeParseInt: missing / NaN / negative input is a field-named
validation error. -/
def safeParseInt (value : Option String) (fieldName : String) : Except CarrierErr Int :=
  match value with
  | none => .error (.validation (fieldName ++ (" is missing")))
  | some v =>
    match jsParseInt v with
    | none => .error (.validation (fieldName ++ (" is not a valid integer: ") ++ v))
    | some parsed =>
      if parsed < 0 then
        .error (.validation (fieldName ++ (" cannot be negative: ") ++ toString parsed))
      else .ok parsed

/-- parseUPSDate: an 8-character YYYYMMDD string is reformatted with
hyphens after parseInt-based component checks (NaN components, month
outside 1..12 or day outside 1..31 are validation errors).  Note the
components are checked through `parseInt`, i.e. on their leading digit
prefix, exactly as the source does. -/
def parseUPSDate (dateStr : Option String) (fieldName : String) : Except CarrierErr String :=
  match dateStr with
  | none => .error (.validation (fieldName ++ (" is missing")))
  | some d =>
    if d.isEmpty then .error (.validation (fieldName ++ (" is missing")))
    else if d.length ≠ 8 then
      .error (.validation (fieldName ++ (" must be 8 characters (YYYYMMDD): ") ++ d))
    else
      let year := d.take 4
      let month := (d.drop 4).take 2
      let day := d.drop 6
      match jsParseInt year, jsParseInt month, jsParseInt day with
      | some _, some monthNum, some dayNum =>
        if monthNum < 1 ∨ monthNum > 12 then
          .error (.validation (fieldName ++ (" has invalid month: ") ++ month))
        else if dayNum < 1 ∨ dayNum > 31 then
          .error (.validation (fieldName ++ (" has invalid day: ") ++ day))
        else .ok (year ++ ("-") ++ month ++ ("-") ++ day)
      | _, _, _ =>
        .error (.validation (fieldName ++ (" contains non-numeric values: ") ++ d))

/-- extractMonetaryValue: negotiated charge first, then the regular charge,
else a validation error naming the field missing from both. -/
def extractMonetaryValue (negotiated : Option UPSNegotiatedRateCharges)
    (regular : Option UPSMonetary) (fieldName : String) : Except CarrierErr ℚ :=
  let negMV := negotiated.bind (fun n => n.TotalCharge.map (fun tc => tc.MonetaryValue))
  if truthyStr negMV then safeParseFloat negMV (fieldName ++ (" (negotiated)"))
  else
    let regMV := regular.map (fun r => r.MonetaryValue)
    if truthyStr regMV then safeParseFloat regMV fieldName
    else .error (.validation (fieldName ++ (" is missing in both negotiated and regular charges")))

/-- extractCurrency: negotiated currency code, else the regular one; missing
or non-3-letter codes are validation errors. -/
def extractCurrency (negotiated : Option UPSNegotiatedRateCharges)
    (regular : Option UPSMonetary) : Except CarrierErr String :=
  let negCC := negotiated.bind (fun n => n.TotalCharge.map (fun tc => tc.CurrencyCode))
  let currency := jsOrStr negCC (regular.map (fun r => r.CurrencyCode))
  match currency with
  | none => .error (.validation ("Currency code is missing"))
  | some c =>
    if c.isEmpty then .error (.validation ("Currency code is missing"))
    else if c.length ≠ 3 then
      .error (.validation (("Currency code must be 3 characters: ") ++ c))
    else .ok c

/-! ## Validator helpers (ups-validator.ts) -/

/-- validateAndMapServiceLevel: unknown code or a table value outside the
ServiceLevel enum is a validation error. -/
def validateAndMapServiceLevel (serviceCode : String) : Except CarrierErr String :=
  match UPS_SERVICE_CODES serviceCode with
  | none => .error (.validation (("Unknown UPS service code: ") ++ serviceCode))
  | some mappedLevel =>
    if validServiceLevels.contains mappedLevel then .ok mappedLevel
    else .error (.validation (("Mapped service level is invalid: ") ++ mappedLevel))

/-- validateRatedShipmentCharges: a shipment must have a truthy negotiated
or regular monetary value. -/
def validateRatedShipmentCharges (shipment : UPSRatedShipment) : Except CarrierErr Unit :=
  let hasNegotiatedCharges :=
    truthyStr (shipment.NegotiatedRateCharges.bind
      (fun n => n.TotalCharge.map (fun tc => tc.MonetaryValue)))
  let hasRegularCharges :=
    truthyStr (shipment.TotalCharges.map (fun tc => tc.MonetaryValue))
  if ¬hasNegotiatedCharges ∧ ¬hasRegularCharges then
    .error (.validation ("Rated shipment missing both negotiated and regular charges"))
  else .ok ()

/-! ## Field access chains shared by both mappers -/

/-- TimeInTransit?.ServiceSummary?.EstimatedArrival?.Arrival?.Date -/
def arrivalDate (rs : UPSRatedShipment) : Option String :=
  rs.TimeInTransit.bind (fun t =>
    t.ServiceSummary.EstimatedArrival.bind (fun ea => ea.Arrival.Date))

/-- GuaranteedDelivery?.BusinessDaysInTransit -/
def gdDays (rs : UPSRatedShipment) : Option String :=
  rs.GuaranteedDelivery.bind (fun g => g.BusinessDaysInTransit)

/-- TimeInTransit?.ServiceSummary?.BusinessDaysInTransit -/
def titDays (rs : UPSRatedShipment) : Option String :=
  rs.TimeInTransit.bind (fun t => t.ServiceSummary.BusinessDaysInTransit)

/-! ## The naive response mapper (plain ups-mapper.ts)

The first version of mapUPSRatedShipmentToQuote: `||`-fallbacks, an
unchecked service-level cast with a STANDARD default, a length-only date
check and bare parseInt/parseFloat.  Reading `.MonetaryValue` through a
missing `TotalCharge`/`TotalCharges` object is a JS TypeError, modelled by
`JsAbort.typeError`; the short-circuit of `||` is preserved, so the regular
block is only dereferenced when the negotiated side is falsy. -/

/-- NegotiatedRateCharges?.TotalCharge.MonetaryValue || TotalCharges.MonetaryValue -/
def naiveTotalChargeStr (rs : UPSRatedShipment) : Except JsAbort String :=
  let fallback : Except JsAbort String :=
    match rs.TotalCharges with
    | none => .error (.typeError ("cannot read MonetaryValue of undefined TotalCharges"))
    | some tc => .ok tc.MonetaryValue
  match rs.NegotiatedRateCharges with
  | none => fallback
  | some n =>
    match n.TotalCharge with
    | none => .error (.typeError ("cannot read MonetaryValue of undefined TotalCharge"))
    | some tc => if tc.MonetaryValue.isEmpty then fallback else .ok tc.MonetaryValue

/-- NegotiatedRateCharges?.TotalCharge.CurrencyCode || TotalCharges.CurrencyCode -/
def naiveCurrencyStr (rs : UPSRatedShipment) : Except JsAbort String :=
  let fallback : Except JsAbort String :=
    match rs.TotalCharges with
    | none => .error (.typeError ("cannot read CurrencyCode of undefined TotalCharges"))
    | some tc => .ok tc.CurrencyCode
  match rs.NegotiatedRateCharges with
  | none => fallback
  | some n =>
    match n.TotalCharge with
    | none => .error (.typeError ("cannot read CurrencyCode of undefined TotalCharge"))
    | some tc => if tc.CurrencyCode.isEmpty then fallback else .ok tc.CurrencyCode

/-- UPS_SERVICE_CODES[serviceCode] || STANDARD (the unchecked cast). -/
def naiveServiceLevel (rs : UPSRatedShipment) : String :=
  (UPS_SERVICE_CODES rs.Service.Code).getD ("STANDARD")

/-- The naive date block: any 8-character truthy date string is blindly
sliced into YYYY-MM-DD; anything else is left undefined. -/
def naiveEstimatedDeliveryDate (rs : UPSRatedShipment) : Option String :=
  match rs.TimeInTransit with
  | none => none
  | some tit =>
    match tit.ServiceSummary.EstimatedArrival with
    | none => none
    | some ea =>
      match ea.Arrival.Date with
      | none => none
      | some d =>
        if ¬d.isEmpty ∧ d.length = 8 then
          some (d.take 4 ++ ("-") ++ (d.drop 4).take 2 ++ ("-") ++ d.drop 6)
        else none

/-- The naive transit block, TimeInTransit branch: bare parseInt (the
result may be NaN, which the naive mapper stores as-is). -/
def naiveTransitDaysTit (rs : UPSRatedShipment) : Option (Option Int) :=
  match titDays rs with
  | some s => if ¬s.isEmpty then some (jsParseInt s) else none
  | none => none

/-- The naive transit block: GuaranteedDelivery days first, else the
TimeInTransit summary days. -/
def naiveTransitDays (rs : UPSRatedShipment) : Option (Option Int) :=
  match gdDays rs with
  | some s => if ¬s.isEmpty then some (jsParseInt s) else naiveTransitDaysTit rs
  | none => naiveTransitDaysTit rs

/-- The naive mapUPSRatedShipmentToQuote (plain ups-mapper.ts). -/
def naiveMapUPSRatedShipmentToQuote (rs : UPSRatedShipment) : Except JsAbort RateQuote :=
  match naiveTotalChargeStr rs with
  | .error e => .error e
  | .ok totalCharge =>
    match naiveCurrencyStr rs with
    | .error e => .error e
    | .ok currency =>
      let serviceLevel := naiveServiceLevel rs
      .ok {
        carrier := "UPS"
        serviceLevel := serviceLevel
        serviceName := (jsOrStr rs.Service.Description (some serviceLevel)).getD serviceLevel
        totalCharge := jsParseFloat totalCharge
        currency := currency
        estimatedDeliveryDate := naiveEstimatedDeliveryDate rs
        transitDays := naiveTransitDays rs
        guaranteedDelivery := rs.GuaranteedDelivery.isSome }

/-! ## The validating response mapper (the mapper built on ups-parser /
ups-validator) -/

/-- The validating date block: parseUPSDate inside a try/catch, the catch
discarding the error (date parsing is optional). -/
def bestEffortDeliveryDate (rs : UPSRatedShipment) : Option String :=
  match arrivalDate rs with
  | some d =>
    if ¬d.isEmpty then (parseUPSDate (some d) ("estimatedDeliveryDate")).toOption
    else none
  | none => none

/-- The validating transit block, TimeInTransit branch: safeParseInt inside
a try/catch. -/
def bestEffortTransitDaysTit (rs : UPSRatedShipment) : Option (Option Int) :=
  match titDays rs with
  | some s =>
    if ¬s.isEmpty then
      match safeParseInt (some s) ("transitDays") with
      | .ok n => some (some n)
      | .error _ => none
    else none
  | none => none

/-- The validating transit block: GuaranteedDelivery days first, else the
TimeInTransit summary days, each inside a try/catch. -/
def bestEffortTransitDays (rs : UPSRatedShipment) : Option (Option Int) :=
  match gdDays rs with
  | some s =>
    if ¬s.isEmpty then
      match safeParseInt (some s) ("transitDays") with
      | .ok n => some (some n)
      | .error _ => none
    else bestEffortTransitDaysTit rs
  | none => bestEffortTransitDaysTit rs

/-- The validating mapUPSRatedShipmentToQuote: charge-presence validation,
safe monetary/currency extraction, strict service-level validation, then
best-effort date and transit-day extraction. -/
def mapUPSRatedShipmentToQuote (rs : UPSRatedShipment) : Except CarrierErr RateQuote :=
  match validateRatedShipmentCharges rs with
  | .error e => .error e
  | .ok _ =>
    match extractMonetaryValue rs.NegotiatedRateCharges rs.TotalCharges ("totalCharge") with
    | .error e => .error e
    | .ok totalCharge =>
      match extractCurrency rs.NegotiatedRateCharges rs.TotalCharges with
      | .error e => .error e
      | .ok currency =>
        match validateAndMapServiceLevel rs.Service.Code with
        | .error e => .error e
        | .ok serviceLevel =>
          .ok {
            carrier := "UPS"
            serviceLevel := serviceLevel
            serviceName := (jsOrStr rs.Service.Description (some serviceLevel)).getD serviceLevel
            totalCharge := some totalCharge
            currency := currency
            estimatedDeliveryDate := bestEffortDeliveryDate rs
            transitDays := bestEffortTransitDays rs
            guaranteedDelivery := rs.GuaranteedDelivery.isSome }

/-! ## Token manager (ups-auth.ts)

The UPSAuth class is modelled as a state machine.  `getTokenStep` is the
synchronous prefix of `getToken()` up to its first await: it either answers
from the cache, attaches to the in-flight refresh promise, or installs a
new refresh promise (identified by a fresh fetch number).  `fetchResolve`
is the continuation that runs when the in-flight fetch settles: on success
it writes the cache from the response body exactly as fetchNewToken does
(no validation of the body!) and the `finally` clears the promise marker;
on failure only the marker is cleared. -/

/-- OAuth token response body as JS sees it: every field may be absent. -/
structure TokenBody where
  access_token : Option String
  token_type : Option String
  expires_in : Option ℚ
  issued_at : Option String
deriving Repr, DecidableEq

/-- Cached token (ups-auth.ts CachedToken): the token is whatever the body
held (possibly undefined), the expiry may be NaN when expires_in was
absent. -/
structure CachedToken where
  token : Option String
  expiresAt : Option ℚ
deriving Repr, DecidableEq

/-- EXPIRY_BUFFER_MS = 5 * 60 * 1000. -/
def EXPIRY_BUFFER_MS : ℚ := 5 * 60 * 1000

/-- isTokenValid: Date.now() < expiresAt (false when expiresAt is NaN). -/
def isTokenValid (now : ℚ) (cached : CachedToken) : Bool :=
  match cached.expiresAt with
  | some e => decide (now < e)
  | none => false

/-- State of one UPSAuth instance, plus two counters recording how many
fetches have been started and resolved (for stating the single-flight
property). -/
structure AuthState where
  cachedToken : Option CachedToken
  tokenRefreshPromise : Option Nat
  fetchesStarted : Nat
  fetchesResolved : Nat
deriving Repr, DecidableEq

def initialAuthState : AuthState :=
  { cachedToken := none, tokenRefreshPromise := none
    fetchesStarted := 0, fetchesResolved := 0 }

/-- What a getToken() call does at its synchronous prefix: a cache hit
returns the cached token, otherwise the caller awaits the in-flight fetch
or starts a new one. -/
inductive GetTokenOutcome where
  | cachedHit (token : Option String)
  | awaited (fetchId : Nat)
  | startedFetch (fetchId : Nat)
deriving Repr, DecidableEq

/-- The synchronous prefix of getToken() when no valid cache is available:
attach to the in-flight promise, or install a fresh one. -/
def getTokenRefreshPath (s : AuthState) : GetTokenOutcome × AuthState :=
  match s.tokenRefreshPromise with
  | some fid => (.awaited fid, s)
  | none =>
    (.startedFetch s.fetchesStarted,
      { s with tokenRefreshPromise := some s.fetchesStarted
               fetchesStarted := s.fetchesStarted + 1 })

/-- The synchronous prefix of getToken(). -/
def getTokenStep (now : ℚ) (s : AuthState) : GetTokenOutcome × AuthState :=
  match s.cachedToken with
  | some c => if isTokenValid now c then (.cachedHit c.token, s) else getTokenRefreshPath s
  | none => getTokenRefreshPath s

/-- The fetch result as the awaiting callers see it (fetchNewToken's return
or throw): a success resolves with the body's access_token — whatever it
is, with no validation — and a failure is an AuthenticationError built from
the error_description when one is truthy. -/
def fetchNewTokenResult (resp : Except (Option String) TokenBody) :
    Except CarrierErr (Option String) :=
  match resp with
  | .ok body => .ok body.access_token
  | .error errDesc =>
    .error (.authentication
      (if truthyStr errDesc then errDesc.getD ("") else ("Failed to obtain OAuth token")))

/-- The state effect of the in-flight fetch settling at time `now`: on
success the cache is overwritten with the body's token and the buffered
expiry (NaN when expires_in was absent); either way the `finally` clears
the promise marker.  When no fetch is in flight the event is a no-op. -/
def fetchResolve (resp : Except (Option String) TokenBody) (now : ℚ)
    (s : AuthState) : AuthState :=
  match s.tokenRefreshPromise with
  | none => s
  | some _ =>
    match resp with
    | .ok body =>
      { s with
        cachedToken := some
          { token := body.access_token
            expiresAt := body.expires_in.map (fun e => now + e * 1000 - EXPIRY_BUFFER_MS) }
        tokenRefreshPromise := none
        fetchesResolved := s.fetchesResolved + 1 }
    | .error _ =>
      { s with tokenRefreshPromise := none, fetchesResolved := s.fetchesResolved + 1 }

/-- invalidateToken(): clears the cache unconditionally. -/
def invalidateToken (s : AuthState) : AuthState :=
  { s with cachedToken := none }

/-- validateTokenResponse (ups-validator.ts + the zod UPSTokenResponseSchema):
all four fields present, a non-empty access token and a positive expires_in,
else a ValidationError.  This helper exists in the repository but is never
called from ups-auth.ts. -/
def validateTokenResponse (body : TokenBody) : Except CarrierErr (String × ℚ) :=
  match body.access_token, body.token_type, body.expires_in, body.issued_at with
  | some a, some _, some e, some _ =>
    if ¬a.isEmpty ∧ 0 < e then .ok (a, e)
    else .error (.validation ("Invalid UPS OAuth token response"))
  | _, _, _, _ => .error (.validation ("Invalid UPS OAuth token response"))

/-- Interleaving events of one UPSAuth instance: a getToken() call arriving
at a given time, or the in-flight fetch settling. -/
inductive AuthEvent where
  | callToken (now : ℚ)
  | resolveFetch (resp : Except (Option String) TokenBody) (now : ℚ)

/-- One event's effect on the state. -/
def authStepEv (s : AuthState) (e : AuthEvent) : AuthState :=
  match e with
  | .callToken now => (getTokenStep now s).2
  | .resolveFetch resp now => fetchResolve resp now s

/-- Run a list of events from a state. -/
def runAuth (s : AuthState) (evs : List AuthEvent) : AuthState :=
  evs.foldl authStepEv s

/-- Number of fetches currently in flight. -/
def inFlightFetches (s : AuthState) : Nat :=
  s.fetchesStarted - s.fetchesResolved

/-- Whether the cache answers a call at time `now`. -/
def cacheValidAt (now : ℚ) (s : AuthState) : Bool :=
  match s.cachedToken with
  | some c => isTokenValid now c
  | none => false

/-- Run a list of getToken() calls at the given times, collecting the
outcomes. -/
def runGetTokens (times : List ℚ) (s : AuthState) : List GetTokenOutcome × AuthState :=
  match times with
  | [] => ([], s)
  | t :: ts =>
    let (o, s2) := getTokenStep t s
    let (os, s3) := runGetTokens ts s2
    (o :: os, s3)

/-! ## Error transformation (base-carrier.ts) -/

/-- The body of an HTTP error response as extractErrorMessage sees it. -/
inductive JsData where
  | undef
  | str (s : String)
  | obj (message : Option String) (error : Option String) (errorDescription : Option String)
deriving Repr, DecidableEq

/-- extractErrorMessage: a string body verbatim; an object's message ||
error || errorDescription || a placeholder; anything else a placeholder. -/
def extractErrorMessage (data : JsData) : String :=
  match data with
  | .str s => s
  | .obj m e d =>
    (jsOrStr m (jsOrStr e (jsOrStr d (some ("Unknown error"))))).getD ("Unknown error")
  | .undef => "Unknown error occurred"

/-- The HTTP response attached to an axios error. -/
structure AxiosResponseModel where
  status : Nat
  retryAfterHeader : Option String
  data : JsData
deriving Repr, DecidableEq

/-- An axios error: a code (for timeouts) and an optional response. -/
structure AxiosErrorModel where
  code : Option String
  response : Option AxiosResponseModel
deriving Repr, DecidableEq

/-- transformError, threaded with the auth cache so that the 401/403
branch's invalidateToken side effect is visible: timeouts and missing
responses are network errors; 429 is a rate-limit error whose retryAfter is
parseInt of a truthy Retry-After header; 401/403 clears the token cache and
is an authentication error; anything else is a carrier-API error with the
extracted message. -/
def transformError (err : AxiosErrorModel) (cache : Option CachedToken) :
    CarrierErr × Option CachedToken :=
  if err.code = some ("ECONNABORTED") ∨ err.code = some ("ETIMEDOUT") then
    (.network ("Request timeout"), cache)
  else
    match err.response with
    | none => (.network ("Network error - no response received"), cache)
    | some r =>
      if r.status = 429 then
        let retryAfter : Option (Option Int) :=
          if truthyStr r.retryAfterHeader then some (jsParseInt (r.retryAfterHeader.getD ("")))
          else none
        (.rateLimit ("Rate limit exceeded") retryAfter, cache)
      else if r.status = 401 ∨ r.status = 403 then
        (.authentication ("Authentication failed"), none)
      else
        (.carrierAPI (extractErrorMessage r.data) r.status, cache)

/-! ## Aggregate rate shopping (carrier-service.ts getAllRates) -/

/-- Quotes of the fulfilled carriers, in registration order. -/
def allQuotesOf (outcomes : List (String × Except CarrierErr RateResponse)) : List RateQuote :=
  (outcomes.filterMap (fun o => (o.2).toOption)).flatMap (fun r => r.quotes)

/-- Name/error pairs of the rejected carriers, in registration order. -/
def errorsOf (outcomes : List (String × Except CarrierErr RateResponse)) :
    List (String × CarrierErr) :=
  outcomes.filterMap (fun o =>
    match o.2 with
    | .error e => some (o.1, e)
    | .ok _ => none)

/-- The JS sort comparator (a, b) => a.totalCharge - b.totalCharge as a
strict test: true exactly when the difference is a negative number (a NaN
difference compares as equal, per the ECMAScript sort specification). -/
def chargeLt (a b : RateQuote) : Bool :=
  match a.totalCharge, b.totalCharge with
  | some x, some y => decide (x < y)
  | _, _ => false

/-- Stable insertion of a quote into a list sorted by `chargeLt`. -/
def insertByCharge (x : RateQuote) : List RateQuote → List RateQuote
  | [] => [x]
  | y :: ys => if chargeLt x y then x :: y :: ys else y :: insertByCharge x ys

/-- Stable sort by ascending totalCharge (Array.prototype.sort with the
numeric comparator). -/
def sortByCharge (l : List RateQuote) : List RateQuote :=
  l.foldr insertByCharge []

/-- getAllRates over the per-carrier outcomes (each registered carrier's
getRates settled result, in registration order): throw when no carriers
are registered; throw the first failing carrier's error when no quotes were
collected and some carrier failed; otherwise return all collected quotes
sorted by ascending totalCharge. -/
def getAllRates (outcomes : List (String × Except CarrierErr RateResponse)) :
    Except CarrierErr RateResponse :=
  match outcomes with
  | [] => .error (.plain ("No carriers registered"))
  | _ =>
    match allQuotesOf outcomes, errorsOf outcomes with
    | [], (_, e) :: _ => .error e
    | qs, _ => .ok { quotes := sortByCharge qs, requestId := none }

/-! ## Predicates and fixtures used by the property statements -/

/-- Invariant of the token-manager state machine: the promise marker is set
exactly while one fetch is unresolved. -/
def AuthInv (s : AuthState) : Prop :=
  s.fetchesResolved ≤ s.fetchesStarted ∧
  s.fetchesStarted - s.fetchesResolved = (if s.tokenRefreshPromise.isSome then 1 else 0)

/-- Non-strict comparator order: `a` need not come after `b`. -/
def chargeLe (a b : RateQuote) : Prop :=
  chargeLt b a = false

/-- A monetary block as the zod schema admits it: a non-empty numeric
string with a non-negative value, and a 3-letter currency code. -/
def MonetaryBlockOk (m : UPSMonetary) : Prop :=
  m.MonetaryValue.isEmpty = false ∧
  (∃ v, jsParseFloat m.MonetaryValue = some v ∧ 0 ≤ v) ∧
  m.CurrencyCode.length = 3

/-- The negotiated block, when present, carries a schema-valid total
charge. -/
def NegotiatedOk (rs : UPSRatedShipment) : Prop :=
  ∀ n, rs.NegotiatedRateCharges = some n →
    ∃ ntc, n.TotalCharge = some ntc ∧ MonetaryBlockOk ntc

/-- The negotiated chain yields no total charge at all. -/
def NoNegotiatedCharge (rs : UPSRatedShipment) : Prop :=
  rs.NegotiatedRateCharges = none ∨
  ∃ n, rs.NegotiatedRateCharges = some n ∧ n.TotalCharge = none

/-- The shipment's service code is in the lookup table and maps to a level
of the domain enum. -/
def ServiceLevelValidFor (rs : UPSRatedShipment) : Prop :=
  ∃ lvl, UPS_SERVICE_CODES rs.Service.Code = some lvl ∧
    validServiceLevels.contains lvl = true

/-- An 8-character date whose year/month/day components parse (via the
parseInt prefix rule) with month in 1..12 and day in 1..31. -/
def WellFormedUPSDate (d : String) : Prop :=
  d.length = 8 ∧
  ∃ y m dd, jsParseInt (d.take 4) = some y ∧
    jsParseInt ((d.drop 4).take 2) = some m ∧
    jsParseInt (d.drop 6) = some dd ∧
    1 ≤ m ∧ m ≤ 12 ∧ 1 ≤ dd ∧ dd ≤ 31

/-- The arrival date, when present and truthy, is well-formed. -/
def DateOk (rs : UPSRatedShipment) : Prop :=
  ∀ d, arrivalDate rs = some d → d.isEmpty = false → WellFormedUPSDate d

/-- A transit-day string that parses to a non-negative integer. -/
def TransitStrOk (s : String) : Prop :=
  ∃ k, jsParseInt s = some k ∧ 0 ≤ k

/-- Transit-day fields, when present and truthy, are valid non-negative
integer strings. -/
def TransitOk (rs : UPSRatedShipment) : Prop :=
  (∀ s, gdDays rs = some s → s.isEmpty = false → TransitStrOk s) ∧
  (∀ s, titDays rs = some s → s.isEmpty = false → TransitStrOk s)

/-- The charge-extraction stage of the validating mapper succeeds on the
shipment. -/
def ChargesOk (rs : UPSRatedShipment) : Prop :=
  validateRatedShipmentCharges rs = .ok () ∧
  (∃ v, extractMonetaryValue rs.NegotiatedRateCharges rs.TotalCharges ("totalCharge") = .ok v) ∧
  (∃ c, extractCurrency rs.NegotiatedRateCharges rs.TotalCharges = .ok c)

/-- The Ground entry of the mock rate response fixture (regular 12.45 USD,
negotiated 10.89 USD, three guaranteed transit days, arrival 20240125). -/
def groundRatedShipment : UPSRatedShipment :=
  { Service := { Code := "03", Description := some ("UPS Ground") }
    TotalCharges := some { CurrencyCode := "USD", MonetaryValue := "12.45" }
    NegotiatedRateCharges := some
      { TotalCharge := some { CurrencyCode := "USD", MonetaryValue := "10.89" } }
    GuaranteedDelivery := some { BusinessDaysInTransit := some ("3") }
    TimeInTransit := some
      { ServiceSummary :=
          { EstimatedArrival := some { Arrival := { Date := some ("20240125"), Time := some ("120000") } }
            BusinessDaysInTransit := some ("3") } } }

/-- A shipment with valid regular charges and service code 13 — a key of
the lookup table whose image, NEXT_DAY_AIR_SAVER, is outside the domain
ServiceLevel enum. -/
def code13RatedShipment : UPSRatedShipment :=
  { Service := { Code := "13", Description := none }
    TotalCharges := some { CurrencyCode := "USD", MonetaryValue := "10.50" }
    NegotiatedRateCharges := none
    GuaranteedDelivery := none
    TimeInTransit := none }

/-- A shipment with valid charges whose 8-character arrival date carries a
non-numeric character after the month's digit: 20241a25. -/
def junkDateRatedShipment : UPSRatedShipment :=
  { Service := { Code := "03", Description := none }
    TotalCharges := some { CurrencyCode := "USD", MonetaryValue := "10.50" }
    NegotiatedRateCharges := none
    GuaranteedDelivery := none
    TimeInTransit := some
      { ServiceSummary :=
          { EstimatedArrival := some { Arrival := { Date := some ("20241a25"), Time := none } }
            BusinessDaysInTransit := none } } }

/-- A 429 response whose Retry-After header is the negative integer -5. -/
def negativeRetryAfterError : AxiosErrorModel :=
  { code := none
    response := some { status := 429, retryAfterHeader := some ("-5"), data := .undef } }

/-- A 2xx OAuth token body with no access_token field (the repository's own
integration test feeds exactly this body and expects a ValidationError). -/
def malformedTokenBody : TokenBody :=
  { access_token := none, token_type := some ("Bearer")
    expires_in := some 14400, issued_at := some ("1234567890") }

/-! ## Properties -/

/-- C5 (code bug exhibit): on a 2xx OAuth response with no access_token,
fetchNewToken resolves with `undefined` and caches a garbage token — it
never runs validateTokenResponse, which rejects the very same body with a
ValidationError.  The spec (and the repository's own integration test)
requires the fetch to fail with a validation-kind error instead. -/
theorem fetchNewToken_skips_validation :
    fetchNewTokenResult (.ok malformedTokenBody) = .ok none ∧
    fetchResolve (.ok malformedTokenBody) 0
        { cachedToken := none, tokenRefreshPromise := some 0
          fetchesStarted := 1, fetchesResolved := 0 }
      = { cachedToken := some { token := none, expiresAt := some 14100000 }
          tokenRefreshPromise := none, fetchesStarted := 1, fetchesResolved := 1 } ∧
    validateTokenResponse malformedTokenBody
      = .error (.validation ("Invalid UPS OAuth token response")) := by
  refine ⟨rfl, ?_, rfl⟩
  show fetchResolve _ _ _ = _
  unfold fetchResolve
  simp only [malformedTokenBody]
  norm_num [EXPIRY_BUFFER_MS]

/-- C7: a 401 or 403 rating response is transformed into an
authentication-kind error and, as a side effect, the token manager's cache
is cleared (invalidateToken), so the next getToken() call with no refresh
in flight starts a fresh fetch.  (The source swallows any rejection of the
invalidation promise; the modelled invalidation is total, so the
authentication error is produced unconditionally in this branch.) -/
theorem auth_error_invalidates_token
    (err : AxiosErrorModel) (r : AxiosResponseModel) (cache : Option CachedToken)
    (now : ℚ) (k1 k2 : Nat)
    (hc1 : err.code ≠ some ("ECONNABORTED")) (hc2 : err.code ≠ some ("ETIMEDOUT"))
    (hr : err.response = some r) (hs : r.status = 401 ∨ r.status = 403) :
    transformError err cache = (.authentication ("Authentication failed"), none) ∧
    (getTokenStep now
        { cachedToken := (transformError err cache).2
          tokenRefreshPromise := none
          fetchesStarted := k1, fetchesResolved := k2 }).1
      = .startedFetch k1 := by
  have h1 : transformError err cache = (.authentication ("Authentication failed"), none) := by
    unfold transformError
    rcases hs with h | h <;> simp [hr, h, hc1, hc2]
  refine ⟨h1, ?_⟩
  rw [h1]
  rfl

/-- C7 witness: the theorem applied to a concrete 401 response. -/
theorem auth_error_invalidates_token_witness :
    transformError
        { code := none
          response := some { status := 401, retryAfterHeader := none, data := .undef } }
        (some { token := some ("tok"), expiresAt := some 999999999 })
      = (.authentication ("Authentication failed"), none) ∧
    (getTokenStep 0
        { cachedToken := (transformError
            { code := none
              response := some { status := 401, retryAfterHeader := none, data := .undef } }
            (some { token := some ("tok"), expiresAt := some 999999999 })).2
          tokenRefreshPromise := none
          fetchesStarted := 4, fetchesResolved := 4 }).1
      = .startedFetch 4 :=
  auth_error_invalidates_token
    { code := none
      response := some { status := 401, retryAfterHeader := none, data := .undef } }
    { status := 401, retryAfterHeader := none, data := .undef }
    (some { token := some ("tok"), expiresAt := some 999999999 })
    0 4 4 (by decide) (by decide) rfl (Or.inl rfl)

/-- C8 counterexample: a 429 response whose Retry-After header is the
negative integer string -5 produces a RateLimitError that does carry a
retry-after value, namely -5 — not the absent hint the claim requires for
a negative header. -/
theorem retry_after_negative_counterexample :
    transformError negativeRetryAfterError none
      = (.rateLimit ("Rate limit exceeded") (some (some (-5))), none) ∧
    some (some (-5 : Int)) ≠ (none : Option (Option Int)) := by
  exact ⟨rfl, by decide⟩

/-- C8 (amended): a 429 response is transformed into a rate-limit-kind
error; the error carries no retry hint exactly when the Retry-After header
is absent or empty, and otherwise carries parseInt of the header — a
non-negative integer when the header is one, but NaN for a non-numeric
header and a negative value for a negative header. -/
theorem rate_limit_retry_after_amended
    (err : AxiosErrorModel) (r : AxiosResponseModel) (cache : Option CachedToken)
    (hc1 : err.code ≠ some ("ECONNABORTED")) (hc2 : err.code ≠ some ("ETIMEDOUT"))
    (hr : err.response = some r) (hs : r.status = 429) :
    ∃ ra, transformError err cache = (.rateLimit ("Rate limit exceeded") ra, cache) ∧
      (ra = none ↔ (r.retryAfterHeader = none ∨ r.retryAfterHeader = some (""))) ∧
      (∀ h, r.retryAfterHeader = some h → h.isEmpty = false → ra = some (jsParseInt h)) := by
  refine ⟨if truthyStr r.retryAfterHeader then some (jsParseInt (r.retryAfterHeader.getD (""))) else none, ?_, ?_, ?_⟩
  · unfold transformError
    simp [hr, hs, hc1, hc2]
  · cases hh : r.retryAfterHeader with
    | none => simp [truthyStr]
    | some h =>
      by_cases he : h.isEmpty = true
      · have h0 : h = "" := (String.isEmpty_iff h).mp he
        subst h0
        simp [truthyStr, he]
      · have h0 : ¬h = "" := fun hq => he (by rw [hq]; rfl)
        simp [truthyStr, he, h0]
  · intro h hh he
    simp [hh, truthyStr, he]

/-- C8 witness: the amended theorem applied at a concrete 429 response with
header 60. -/
theorem rate_limit_retry_after_amended_witness :
    ∃ ra, transformError
        { code := none
          response := some { status := 429, retryAfterHeader := some ("60"), data := .undef } }
        none
      = (.rateLimit ("Rate limit exceeded") ra, none) ∧
      (ra = none ↔ ((some ("60") : Option String) = none ∨ (some ("60") : Option String) = some (""))) ∧
      (∀ h, (some ("60") : Option String) = some h → h.isEmpty = false → ra = some (jsParseInt h)) :=
  rate_limit_retry_after_amended
    { code := none
      response := some { status := 429, retryAfterHeader := some ("60"), data := .undef } }
    { status := 429, retryAfterHeader := some ("60"), data := .undef }
    none (by decide) (by decide) rfl rfl

/-- Helper: a getToken() call that hits a valid cache returns the cached
token and leaves the whole state (counters included) unchanged. -/
theorem getTokenStep_cached (s : AuthState) (c : CachedToken) (now : ℚ)
    (hc : s.cachedToken = some c) (hv : isTokenValid now c = true) :
    getTokenStep now s = (.cachedHit c.token, s) := by
  unfold getTokenStep
  rw [hc]
  simp [hv]

/-- Helper: a run of getToken() calls whose times all fall inside the cached
validity window answers every call from the cache and never changes the
state. -/
theorem runGetTokens_cached (times : List ℚ) (s : AuthState) (c : CachedToken)
    (hc : s.cachedToken = some c) (hv : ∀ t ∈ times, isTokenValid t c = true) :
    runGetTokens times s = (times.map (fun _ => GetTokenOutcome.cachedHit c.token), s) := by
  induction times with
  | nil => rfl
  | cons t ts ih =>
    have hstep := getTokenStep_cached s c t hc (hv t (by simp))
    have ihh := ih (fun u hu => hv u (by simp [hu]))
    simp [runGetTokens, hstep, ihh]

/-- C2: while a cached token exists and the call time is strictly before
its stored expiry, getToken() answers from the cache with no state change
(in particular no fetch is started), and every call of such a run returns
the same cached string; a successful fetch at time `now` with a body
carrying expires_in = e stores expiry now + e·1000 − 5·60·1000 ms; and once
that buffered expiry is not in the future any later getToken() call (with
no refresh in flight) starts a fresh fetch — it is not an error. -/
theorem getToken_caching :
    (∀ (s : AuthState) (c : CachedToken) (now : ℚ), s.cachedToken = some c →
      isTokenValid now c = true →
      getTokenStep now s = (.cachedHit c.token, s)) ∧
    (∀ (s : AuthState) (c : CachedToken) (times : List ℚ), s.cachedToken = some c →
      (∀ t ∈ times, isTokenValid t c = true) →
      runGetTokens times s = (times.map (fun _ => GetTokenOutcome.cachedHit c.token), s)) ∧
    (∀ (body : TokenBody) (e now : ℚ) (s : AuthState), s.tokenRefreshPromise ≠ none →
      body.expires_in = some e →
      (fetchResolve (.ok body) now s).cachedToken
        = some { token := body.access_token
                 expiresAt := some (now + e * 1000 - EXPIRY_BUFFER_MS) }) ∧
    (∀ (s : AuthState) (tok : Option String) (eAt now : ℚ),
      s.cachedToken = some { token := tok, expiresAt := some eAt } →
      s.tokenRefreshPromise = none → eAt ≤ now →
      getTokenStep now s
        = (.startedFetch s.fetchesStarted,
           { s with tokenRefreshPromise := some s.fetchesStarted
                    fetchesStarted := s.fetchesStarted + 1 })) := by
  refine ⟨getTokenStep_cached, fun s c times => runGetTokens_cached times s c, ?_, ?_⟩
  · intro body e now s hp hbody
    cases hpp : s.tokenRefreshPromise with
    | none => exact absurd hpp hp
    | some fid =>
      unfold fetchResolve
      rw [hpp]
      simp [hbody]
  · intro s tok eAt now hc hp hle
    have hv : isTokenValid now { token := tok, expiresAt := some eAt } = false := by
      simp [isTokenValid, not_lt.mpr hle]
    unfold getTokenStep
    rw [hc]
    simp only [hv, Bool.false_eq_true, if_false]
    unfold getTokenRefreshPath
    rw [hp]
    simp [hc]

/-- C2 witness: a state caching the mock token answers calls at times 1, 2
and 3 from the cache; resolving a fetch of the mock body (expires_in 14400 s)
at time 0 stores expiry 14100000 ms; and a call at exactly that stored
expiry starts a fresh fetch. -/
theorem getToken_caching_witness :
    runGetTokens [1, 2, 3]
        { cachedToken := some { token := some ("mock_access_token"), expiresAt := some 14100000 }
          tokenRefreshPromise := none, fetchesStarted := 1, fetchesResolved := 1 }
      = ([.cachedHit (some ("mock_access_token")), .cachedHit (some ("mock_access_token")),
          .cachedHit (some ("mock_access_token"))],
         { cachedToken := some { token := some ("mock_access_token"), expiresAt := some 14100000 }
           tokenRefreshPromise := none, fetchesStarted := 1, fetchesResolved := 1 }) ∧
    (fetchResolve
        (.ok { access_token := some ("mock_access_token"), token_type := some ("Bearer")
               expires_in := some 14400, issued_at := some ("1705334400000") }) 0
        { cachedToken := none, tokenRefreshPromise := some 0
          fetchesStarted := 1, fetchesResolved := 0 }).cachedToken
      = some { token := some ("mock_access_token"), expiresAt := some (0 + 14400 * 1000 - EXPIRY_BUFFER_MS) } ∧
    getTokenStep 14100000
        { cachedToken := some { token := some ("mock_access_token"), expiresAt := some 14100000 }
          tokenRefreshPromise := none, fetchesStarted := 1, fetchesResolved := 1 }
      = (.startedFetch 1,
         { cachedToken := some { token := some ("mock_access_token"), expiresAt := some 14100000 }
           tokenRefreshPromise := some 1, fetchesStarted := 2, fetchesResolved := 1 }) := by
  refine ⟨?_, ?_, ?_⟩
  · exact getToken_caching.2.1
      { cachedToken := some { token := some ("mock_access_token"), expiresAt := some 14100000 }
        tokenRefreshPromise := none, fetchesStarted := 1, fetchesResolved := 1 }
      { token := some ("mock_access_token"), expiresAt := some 14100000 }
      [1, 2, 3] rfl (by decide)
  · exact getToken_caching.2.2.1
      { access_token := some ("mock_access_token"), token_type := some ("Bearer")
        expires_in := some 14400, issued_at := some ("1705334400000") }
      14400 0
      { cachedToken := none, tokenRefreshPromise := some 0
        fetchesStarted := 1, fetchesResolved := 0 }
      (by decide) rfl
  · exact getToken_caching.2.2.2
      { cachedToken := some { token := some ("mock_access_token"), expiresAt := some 14100000 }
        tokenRefreshPromise := none, fetchesStarted := 1, fetchesResolved := 1 }
      (some ("mock_access_token")) 14100000 14100000 rfl rfl (by norm_num)

/-- Helper: the initial token-manager state satisfies the single-flight
invariant. -/
theorem authInv_initial : AuthInv initialAuthState :=
  ⟨Nat.le_refl 0, rfl⟩

/-- Helper: every event preserves the single-flight invariant. -/
theorem authInv_step (s : AuthState) (e : AuthEvent) (h : AuthInv s) :
    AuthInv (authStepEv s e) := by
  obtain ⟨ct, trp, fs, fr⟩ := s
  obtain ⟨h1, h2⟩ := h
  cases e with
  | callToken now =>
    cases ct with
    | some c =>
      by_cases hv : isTokenValid now c = true <;>
        cases trp <;>
          simp_all [authStepEv, getTokenStep, getTokenRefreshPath, AuthInv] <;>
            omega
    | none =>
      cases trp <;>
        simp_all [authStepEv, getTokenStep, getTokenRefreshPath, AuthInv] <;>
          omega
  | resolveFetch resp now =>
    cases trp with
    | none => exact ⟨h1, h2⟩
    | some fid =>
      cases resp <;>
        simp_all [authStepEv, fetchResolve, AuthInv] <;>
          omega

/-- Helper: the invariant holds in every state reachable from the initial
one. -/
theorem authInv_run (evs : List AuthEvent) : AuthInv (runAuth initialAuthState evs) := by
  suffices h : ∀ (s : AuthState), AuthInv s → AuthInv (runAuth s evs) from
    h initialAuthState authInv_initial
  induction evs with
  | nil => exact fun s hs => hs
  | cons e es ih => exact fun s hs => ih (authStepEv s e) (authInv_step s e hs)

/-- Helper: a getToken() call that cannot be answered from the cache takes
the refresh path. -/
theorem getTokenStep_miss (now : ℚ) (s : AuthState) (hcv : cacheValidAt now s = false) :
    getTokenStep now s = getTokenRefreshPath s := by
  unfold getTokenStep
  cases hc : s.cachedToken with
  | none => rfl
  | some c =>
    have : isTokenValid now c = false := by
      unfold cacheValidAt at hcv
      rwa [hc] at hcv
    simp [this]

/-- C1: in every state reachable by any interleaving of getToken() calls
and fetch resolutions, at most one fetch is in flight; a call made while a
refresh is in flight and the cache cannot answer attaches to that same
refresh (same fetch id, no state change, no new fetch); resolving the
in-flight fetch — with success or failure alike — always clears the
in-flight marker; and after any resolution a call that misses the cache
starts a fresh fetch, so a failed fetch never blocks the manager. -/
theorem tokenManager_single_flight :
    (∀ evs : List AuthEvent, inFlightFetches (runAuth initialAuthState evs) ≤ 1) ∧
    (∀ (s : AuthState) (now : ℚ) (fid : Nat), s.tokenRefreshPromise = some fid →
      cacheValidAt now s = false →
      getTokenStep now s = (.awaited fid, s)) ∧
    (∀ (resp : Except (Option String) TokenBody) (now : ℚ) (s : AuthState),
      (fetchResolve resp now s).tokenRefreshPromise = none) ∧
    (∀ (resp : Except (Option String) TokenBody) (now now2 : ℚ) (s : AuthState),
      cacheValidAt now2 (fetchResolve resp now s) = false →
      (getTokenStep now2 (fetchResolve resp now s)).1
        = .startedFetch (fetchResolve resp now s).fetchesStarted) := by
  have hclear : ∀ (resp : Except (Option String) TokenBody) (now : ℚ) (s : AuthState),
      (fetchResolve resp now s).tokenRefreshPromise = none := by
    intro resp now s
    unfold fetchResolve
    cases hp : s.tokenRefreshPromise with
    | none => exact hp
    | some fid => cases resp <;> rfl
  refine ⟨?_, ?_, hclear, ?_⟩
  · intro evs
    have h := authInv_run evs
    obtain ⟨h1, h2⟩ := h
    unfold inFlightFetches
    rw [h2]
    cases (runAuth initialAuthState evs).tokenRefreshPromise <;> simp
  · intro s now fid hp hcv
    rw [getTokenStep_miss now s hcv]
    unfold getTokenRefreshPath
    rw [hp]
  · intro resp now now2 s hcv
    rw [getTokenStep_miss now2 _ hcv]
    unfold getTokenRefreshPath
    rw [hclear resp now s]

/-- C1 witness: after a single call at time 0 one fetch is in flight; a
second call at time 5 attaches to fetch 0 without starting a new one; a
failing resolution clears the marker; and a call after that failure starts
fetch number 1. -/
theorem tokenManager_single_flight_witness :
    inFlightFetches (runAuth initialAuthState [.callToken 0]) ≤ 1 ∧
    getTokenStep 5 (runAuth initialAuthState [.callToken 0])
      = (.awaited 0, runAuth initialAuthState [.callToken 0]) ∧
    (fetchResolve (.error none) 7 (runAuth initialAuthState [.callToken 0])).tokenRefreshPromise
      = none ∧
    (getTokenStep 9 (fetchResolve (.error none) 7 (runAuth initialAuthState [.callToken 0]))).1
      = .startedFetch
          (fetchResolve (.error none) 7 (runAuth initialAuthState [.callToken 0])).fetchesStarted :=
  ⟨tokenManager_single_flight.1 [.callToken 0],
   tokenManager_single_flight.2.1 (runAuth initialAuthState [.callToken 0]) 5 0 rfl rfl,
   tokenManager_single_flight.2.2.1 (.error none) 7 (runAuth initialAuthState [.callToken 0]),
   tokenManager_single_flight.2.2.2 (.error none) 7 9 (runAuth initialAuthState [.callToken 0]) rfl⟩

/-- Helper: a 3-letter string is not empty. -/
theorem length3_isEmpty_false (s : String) (h : s.length = 3) : s.isEmpty = false := by
  cases he : s.isEmpty with
  | false => rfl
  | true =>
    have h0 : s = "" := (String.isEmpty_iff s).mp he
    rw [h0] at h
    simp at h

/-- Helper: safeParseFloat succeeds on a string that parses to a
non-negative rational. -/
theorem safeParseFloat_ok (s : String) (v : ℚ) (fn : String)
    (hp : jsParseFloat s = some v) (hv : 0 ≤ v) :
    safeParseFloat (some s) fn = .ok v := by
  simp only [safeParseFloat, hp]
  simp [not_lt.mpr hv]

/-- Helper: charge extraction on a shipment whose negotiated block carries
a schema-valid total charge uses the negotiated values. -/
theorem charges_negotiated (rs : UPSRatedShipment) (n : UPSNegotiatedRateCharges)
    (ntc : UPSMonetary) (v : ℚ)
    (hneg : rs.NegotiatedRateCharges = some n) (hntc : n.TotalCharge = some ntc)
    (hne : ntc.MonetaryValue.isEmpty = false) (hv : jsParseFloat ntc.MonetaryValue = some v)
    (hv0 : 0 ≤ v) (hcc : ntc.CurrencyCode.length = 3) :
    validateRatedShipmentCharges rs = .ok () ∧
    extractMonetaryValue rs.NegotiatedRateCharges rs.TotalCharges ("totalCharge") = .ok v ∧
    extractCurrency rs.NegotiatedRateCharges rs.TotalCharges = .ok ntc.CurrencyCode := by
  have hccne : ntc.CurrencyCode.isEmpty = false := length3_isEmpty_false _ hcc
  have h1 : safeParseFloat (some ntc.MonetaryValue) ("totalCharge (negotiated)")
      = .ok v := safeParseFloat_ok _ v _ hv hv0
  refine ⟨?_, ?_, ?_⟩
  · simp [validateRatedShipmentCharges, hneg, hntc, truthyStr, hne]
  · simp [extractMonetaryValue, hneg, hntc, truthyStr, hne, h1]
  · simp [extractCurrency, hneg, hntc, jsOrStr, truthyStr, hccne, hcc]

/-- Helper: charge extraction on a shipment with no negotiated charge and a
schema-valid regular block uses the regular values. -/
theorem charges_regular (rs : UPSRatedShipment) (tc : UPSMonetary) (v : ℚ)
    (hnoneg : NoNegotiatedCharge rs) (htc : rs.TotalCharges = some tc)
    (hne : tc.MonetaryValue.isEmpty = false) (hv : jsParseFloat tc.MonetaryValue = some v)
    (hv0 : 0 ≤ v) (hcc : tc.CurrencyCode.length = 3) :
    validateRatedShipmentCharges rs = .ok () ∧
    extractMonetaryValue rs.NegotiatedRateCharges rs.TotalCharges ("totalCharge") = .ok v ∧
    extractCurrency rs.NegotiatedRateCharges rs.TotalCharges = .ok tc.CurrencyCode := by
  have hccne : tc.CurrencyCode.isEmpty = false := length3_isEmpty_false _ hcc
  have h1 : safeParseFloat (some tc.MonetaryValue) ("totalCharge") = .ok v :=
    safeParseFloat_ok _ v _ hv hv0
  have hchain : rs.NegotiatedRateCharges.bind
      (fun n => n.TotalCharge.map (fun c => c.MonetaryValue)) = none := by
    rcases hnoneg with h | ⟨n, hn, hn2⟩
    · rw [h]; rfl
    · rw [hn]; simp [hn2]
  have hchainc : rs.NegotiatedRateCharges.bind
      (fun n => n.TotalCharge.map (fun c => c.CurrencyCode)) = none := by
    rcases hnoneg with h | ⟨n, hn, hn2⟩
    · rw [h]; rfl
    · rw [hn]; simp [hn2]
  refine ⟨?_, ?_, ?_⟩
  · simp [validateRatedShipmentCharges, hchain, htc, truthyStr, hne]
  · simp [extractMonetaryValue, hchain, htc, truthyStr, hne, h1]
  · simp [extractCurrency, hchainc, htc, jsOrStr, truthyStr, hccne, hcc]

/-- C3: quote conversion prefers the negotiated total charge — whenever the
negotiated block carries a (schema-valid) total charge, the quote's
totalCharge and currency are the negotiated monetary value and currency
code; with no negotiated charge, the (schema-valid) regular values are
used; with neither, the conversion fails with a ValidationError saying both
charge blocks are missing. -/
theorem negotiated_rate_precedence :
    (∀ (rs : UPSRatedShipment) (n : UPSNegotiatedRateCharges) (ntc : UPSMonetary) (lvl : String),
      rs.NegotiatedRateCharges = some n → n.TotalCharge = some ntc → MonetaryBlockOk ntc →
      validateAndMapServiceLevel rs.Service.Code = .ok lvl →
      ∃ q, mapUPSRatedShipmentToQuote rs = .ok q ∧
        q.totalCharge = jsParseFloat ntc.MonetaryValue ∧ q.currency = ntc.CurrencyCode) ∧
    (∀ (rs : UPSRatedShipment) (tc : UPSMonetary) (lvl : String),
      NoNegotiatedCharge rs → rs.TotalCharges = some tc → MonetaryBlockOk tc →
      validateAndMapServiceLevel rs.Service.Code = .ok lvl →
      ∃ q, mapUPSRatedShipmentToQuote rs = .ok q ∧
        q.totalCharge = jsParseFloat tc.MonetaryValue ∧ q.currency = tc.CurrencyCode) ∧
    (∀ rs : UPSRatedShipment, NoNegotiatedCharge rs → rs.TotalCharges = none →
      mapUPSRatedShipmentToQuote rs
        = .error (.validation ("Rated shipment missing both negotiated and regular charges"))) := by
  refine ⟨?_, ?_, ?_⟩
  · intro rs n ntc lvl hneg hntc hok hsvc
    obtain ⟨hne, ⟨v, hv, hv0⟩, hcc⟩ := hok
    obtain ⟨hvrsc, hemv, hec⟩ := charges_negotiated rs n ntc v hneg hntc hne hv hv0 hcc
    have hmap : mapUPSRatedShipmentToQuote rs = .ok
        { carrier := "UPS", serviceLevel := lvl
          serviceName := (jsOrStr rs.Service.Description (some lvl)).getD lvl
          totalCharge := some v, currency := ntc.CurrencyCode
          estimatedDeliveryDate := bestEffortDeliveryDate rs
          transitDays := bestEffortTransitDays rs
          guaranteedDelivery := rs.GuaranteedDelivery.isSome } := by
      unfold mapUPSRatedShipmentToQuote
      simp only [hvrsc, hemv, hec, hsvc]
    exact ⟨_, hmap, hv.symm, rfl⟩
  · intro rs tc lvl hnoneg htc hok hsvc
    obtain ⟨hne, ⟨v, hv, hv0⟩, hcc⟩ := hok
    obtain ⟨hvrsc, hemv, hec⟩ := charges_regular rs tc v hnoneg htc hne hv hv0 hcc
    have hmap : mapUPSRatedShipmentToQuote rs = .ok
        { carrier := "UPS", serviceLevel := lvl
          serviceName := (jsOrStr rs.Service.Description (some lvl)).getD lvl
          totalCharge := some v, currency := tc.CurrencyCode
          estimatedDeliveryDate := bestEffortDeliveryDate rs
          transitDays := bestEffortTransitDays rs
          guaranteedDelivery := rs.GuaranteedDelivery.isSome } := by
      unfold mapUPSRatedShipmentToQuote
      simp only [hvrsc, hemv, hec, hsvc]
    exact ⟨_, hmap, hv.symm, rfl⟩
  · intro rs hnoneg htc
    have hchain : rs.NegotiatedRateCharges.bind
        (fun n => n.TotalCharge.map (fun c => c.MonetaryValue)) = none := by
      rcases hnoneg with h | ⟨n, hn, hn2⟩
      · rw [h]; rfl
      · rw [hn]; simp [hn2]
    have hvrsc : validateRatedShipmentCharges rs
        = .error (.validation ("Rated shipment missing both negotiated and regular charges")) := by
      simp [validateRatedShipmentCharges, hchain, htc, truthyStr]
    unfold mapUPSRatedShipmentToQuote
    simp only [hvrsc]

/-- C3 witness: on the mock Ground shipment (regular 12.45, negotiated
10.89) the quote carries the negotiated value and currency. -/
theorem negotiated_rate_precedence_witness :
    ∃ q, mapUPSRatedShipmentToQuote groundRatedShipment = .ok q ∧
      q.totalCharge = jsParseFloat ("10.89") ∧ q.currency = "USD" :=
  negotiated_rate_precedence.1 groundRatedShipment
    { TotalCharge := some { CurrencyCode := "USD", MonetaryValue := "10.89" } }
    { CurrencyCode := "USD", MonetaryValue := "10.89" } ("GROUND")
    rfl rfl
    ⟨rfl,
     ⟨1089/100,
      by simp +decide [jsParseFloat, decPrefixVal, digitsVal, fracVal]; norm_num,
      by norm_num⟩,
     rfl⟩
    rfl

/-- Helper: the mock Ground shipment passes the charge-extraction stage. -/
theorem groundChargesOk : ChargesOk groundRatedShipment :=
  ⟨rfl,
   ⟨1089/100, by
      simp +decide [extractMonetaryValue, safeParseFloat, jsParseFloat, decPrefixVal,
        digitsVal, fracVal, truthyStr, groundRatedShipment]
      norm_num⟩,
   ⟨"USD", rfl⟩⟩

/-- C4 counterexample: service code 13 is a key of the lookup table (its
value is NEXT_DAY_AIR_SAVER), yet mapping a rated shipment with that code
does not yield the table's level — it fails with a ValidationError naming
the invalid mapped level, because NEXT_DAY_AIR_SAVER is not a domain
service level. -/
theorem service_code_13_counterexample :
    UPS_SERVICE_CODES ("13") = some ("NEXT_DAY_AIR_SAVER") ∧
    validateAndMapServiceLevel ("13")
      = .error (.validation ("Mapped service level is invalid: NEXT_DAY_AIR_SAVER")) ∧
    mapUPSRatedShipmentToQuote code13RatedShipment
      = .error (.validation ("Mapped service level is invalid: NEXT_DAY_AIR_SAVER")) := by
  refine ⟨rfl, rfl, ?_⟩
  simp +decide [mapUPSRatedShipmentToQuote, validateRatedShipmentCharges,
    extractMonetaryValue, extractCurrency, validateAndMapServiceLevel,
    safeParseFloat, jsParseFloat, decPrefixVal, digitsVal, fracVal,
    truthyStr, jsOrStr, UPS_SERVICE_CODES, validServiceLevels, code13RatedShipment]
  norm_num

/-- C4 (amended): for a shipment whose charges pass extraction, mapping
fails with a ValidationError naming the code when the service code is not
in the lookup table; yields the table's level when the table's value is one
of the domain service levels; and fails with a ValidationError naming the
invalid level when the table's value is outside the enum (which happens for
exactly one key, 13 → NEXT_DAY_AIR_SAVER). -/
theorem service_code_mapping_amended :
    (∀ rs : UPSRatedShipment, ChargesOk rs → UPS_SERVICE_CODES rs.Service.Code = none →
      mapUPSRatedShipmentToQuote rs
        = .error (.validation (("Unknown UPS service code: ") ++ rs.Service.Code))) ∧
    (∀ (rs : UPSRatedShipment) (lvl : String), ChargesOk rs →
      UPS_SERVICE_CODES rs.Service.Code = some lvl → validServiceLevels.contains lvl = true →
      ∃ q, mapUPSRatedShipmentToQuote rs = .ok q ∧ q.serviceLevel = lvl) ∧
    (∀ (rs : UPSRatedShipment) (lvl : String), ChargesOk rs →
      UPS_SERVICE_CODES rs.Service.Code = some lvl → validServiceLevels.contains lvl = false →
      mapUPSRatedShipmentToQuote rs
        = .error (.validation (("Mapped service level is invalid: ") ++ lvl))) := by
  refine ⟨?_, ?_, ?_⟩
  · intro rs hch htable
    obtain ⟨hvrsc, ⟨v, hemv⟩, ⟨c, hec⟩⟩ := hch
    have hsvc : validateAndMapServiceLevel rs.Service.Code
        = .error (.validation (("Unknown UPS service code: ") ++ rs.Service.Code)) := by
      simp [validateAndMapServiceLevel, htable]
    unfold mapUPSRatedShipmentToQuote
    simp only [hvrsc, hemv, hec, hsvc]
  · intro rs lvl hch htable hcontains
    obtain ⟨hvrsc, ⟨v, hemv⟩, ⟨c, hec⟩⟩ := hch
    have hsvc : validateAndMapServiceLevel rs.Service.Code = .ok lvl := by
      simp only [validateAndMapServiceLevel, htable]
      simp only [hcontains, if_true]
    have hmap : mapUPSRatedShipmentToQuote rs = .ok
        { carrier := "UPS", serviceLevel := lvl
          serviceName := (jsOrStr rs.Service.Description (some lvl)).getD lvl
          totalCharge := some v, currency := c
          estimatedDeliveryDate := bestEffortDeliveryDate rs
          transitDays := bestEffortTransitDays rs
          guaranteedDelivery := rs.GuaranteedDelivery.isSome } := by
      unfold mapUPSRatedShipmentToQuote
      simp only [hvrsc, hemv, hec, hsvc]
    exact ⟨_, hmap, rfl⟩
  · intro rs lvl hch htable hcontains
    obtain ⟨hvrsc, ⟨v, hemv⟩, ⟨c, hec⟩⟩ := hch
    have hsvc : validateAndMapServiceLevel rs.Service.Code
        = .error (.validation (("Mapped service level is invalid: ") ++ lvl)) := by
      simp only [validateAndMapServiceLevel, htable]
      simp only [hcontains, Bool.false_eq_true, if_false]
    unfold mapUPSRatedShipmentToQuote
    simp only [hvrsc, hemv, hec, hsvc]

/-- C4 witness: the amended theorem applied to the mock Ground shipment
(code 03 → GROUND) and to the same shipment with code INVALID_CODE. -/
theorem service_code_mapping_amended_witness :
    (∃ q, mapUPSRatedShipmentToQuote groundRatedShipment = .ok q ∧
      q.serviceLevel = "GROUND") ∧
    mapUPSRatedShipmentToQuote
        { groundRatedShipment with
            Service := { Code := "INVALID_CODE", Description := none } }
      = .error (.validation (("Unknown UPS service code: ") ++ "INVALID_CODE")) :=
  ⟨service_code_mapping_amended.2.1 groundRatedShipment ("GROUND") groundChargesOk rfl rfl,
   service_code_mapping_amended.1
     { groundRatedShipment with Service := { Code := "INVALID_CODE", Description := none } }
     groundChargesOk rfl⟩

/-- C6 counterexample: the 8-character date 20241a25 is malformed (it
contains a non-numeric character), yet the conversion does not omit the
date — the quote is produced with estimatedDeliveryDate 2024-1a-25, because
parseUPSDate range-checks the parseInt prefix of each component (month
prefix 1 is in range). -/
theorem date_junk_counterexample :
    mapUPSRatedShipmentToQuote junkDateRatedShipment
      = .ok { carrier := "UPS", serviceLevel := "GROUND", serviceName := "GROUND"
              totalCharge := some (21/2), currency := "USD"
              estimatedDeliveryDate := some ("2024-1a-25"), transitDays := none
              guaranteedDelivery := false } ∧
    ("20241a25").toList.all Char.isDigit = false ∧
    some ("2024-1a-25") ≠ (none : Option String) := by
  refine ⟨?_, by decide, by decide⟩
  simp +decide [mapUPSRatedShipmentToQuote, validateRatedShipmentCharges,
    extractMonetaryValue, extractCurrency, validateAndMapServiceLevel,
    safeParseFloat, jsParseFloat, decPrefixVal, digitsVal, fracVal,
    truthyStr, jsOrStr, UPS_SERVICE_CODES, validServiceLevels, junkDateRatedShipment,
    bestEffortDeliveryDate, bestEffortTransitDays, bestEffortTransitDaysTit,
    arrivalDate, gdDays, titDays, parseUPSDate, jsParseInt, digitsPrefixVal]
  norm_num
  decide

/-- C6 (amended): date extraction is best-effort and never fails the
conversion — every successfully mapped quote carries exactly the
best-effort parse of the arrival date; 20240125 becomes 2024-01-25, and a
wrong-length date, a component whose leading characters are non-numeric, or
an out-of-range month/day prefix value is omitted; but an 8-character date
whose components carry trailing junk after an in-range numeric prefix
(such as 20241a25) is reformatted verbatim instead of omitted. -/
theorem date_extraction_amended :
    (∀ (rs : UPSRatedShipment) (q : RateQuote), mapUPSRatedShipmentToQuote rs = .ok q →
      q.estimatedDeliveryDate = bestEffortDeliveryDate rs) ∧
    parseUPSDate (some ("20240125")) ("estimatedDeliveryDate") = .ok ("2024-01-25") ∧
    (parseUPSDate (some ("2024125")) ("estimatedDeliveryDate")).toOption = none ∧
    (parseUPSDate (some ("20241325")) ("estimatedDeliveryDate")).toOption = none ∧
    (parseUPSDate (some ("20240132")) ("estimatedDeliveryDate")).toOption = none ∧
    (parseUPSDate (some ("a0240125")) ("estimatedDeliveryDate")).toOption = none ∧
    parseUPSDate (some ("20241a25")) ("estimatedDeliveryDate") = .ok ("2024-1a-25") := by
  refine ⟨?_, rfl, by decide, by decide, by decide, by decide, rfl⟩
  intro rs q hq
  unfold mapUPSRatedShipmentToQuote at hq
  cases h1 : validateRatedShipmentCharges rs with
  | error e => rw [h1] at hq; cases hq
  | ok u =>
    rw [h1] at hq
    cases h2 : extractMonetaryValue rs.NegotiatedRateCharges rs.TotalCharges ("totalCharge") with
    | error e => rw [h2] at hq; cases hq
    | ok v =>
      rw [h2] at hq
      cases h3 : extractCurrency rs.NegotiatedRateCharges rs.TotalCharges with
      | error e => rw [h3] at hq; cases hq
      | ok c =>
        rw [h3] at hq
        cases h4 : validateAndMapServiceLevel rs.Service.Code with
        | error e => rw [h4] at hq; cases hq
        | ok lvl =>
          rw [h4] at hq
          cases hq
          rfl

/-- C6 witness: the date-projection conjunct applied to the mock Ground
shipment and its computed quote. -/
theorem date_extraction_amended_witness :
    ({ carrier := "UPS", serviceLevel := "GROUND", serviceName := "UPS Ground"
       totalCharge := some (1089/100), currency := "USD"
       estimatedDeliveryDate := some ("2024-01-25"), transitDays := some (some 3)
       guaranteedDelivery := true } : RateQuote).estimatedDeliveryDate
      = bestEffortDeliveryDate groundRatedShipment :=
  date_extraction_amended.1 groundRatedShipment _ (by
    simp +decide [mapUPSRatedShipmentToQuote, validateRatedShipmentCharges,
      extractMonetaryValue, extractCurrency, validateAndMapServiceLevel,
      safeParseFloat, jsParseFloat, decPrefixVal, digitsVal, fracVal,
      truthyStr, jsOrStr, UPS_SERVICE_CODES, validServiceLevels, groundRatedShipment,
      bestEffortDeliveryDate, bestEffortTransitDays, bestEffortTransitDaysTit,
      arrivalDate, gdDays, titDays, parseUPSDate, jsParseInt, digitsPrefixVal,
      safeParseInt]
    norm_num
    decide)

/-- Helper: inserting into the sorted list is a permutation of consing. -/
theorem insertByCharge_perm (x : RateQuote) (l : List RateQuote) :
    (insertByCharge x l).Perm (x :: l) := by
  induction l with
  | nil => exact List.Perm.refl _
  | cons y ys ih =>
    unfold insertByCharge
    by_cases h : chargeLt x y = true
    · simp [h]
    · simp only [h, if_false]
      exact ((ih.cons y).trans (List.Perm.swap x y ys))

/-- Helper: the sort is a permutation of its input. -/
theorem sortByCharge_perm (l : List RateQuote) : (sortByCharge l).Perm l := by
  induction l with
  | nil => exact List.Perm.refl _
  | cons a l ih =>
    exact (insertByCharge_perm a (sortByCharge l)).trans (ih.cons a)

/-- Helper: comparator facts on quotes with non-NaN charges. -/
theorem chargeLt_asymm (x y : RateQuote) (h : chargeLt x y = true) :
    chargeLe x y := by
  unfold chargeLe
  unfold chargeLt at h ⊢
  cases hx : x.totalCharge with
  | none => rw [hx] at h; simp at h
  | some a =>
    cases hy : y.totalCharge with
    | none => rw [hx, hy] at h
    | some b =>
      rw [hx, hy] at h
      simp at h
      simp [hx, hy, not_lt.mpr (le_of_lt h)]

/-- Helper: transitivity of the non-strict order on non-NaN charges. -/
theorem chargeLe_trans (a b c : RateQuote)
    (ha : a.totalCharge.isSome = true) (hb : b.totalCharge.isSome = true)
    (hc : c.totalCharge.isSome = true)
    (h1 : chargeLe a b) (h2 : chargeLe b c) : chargeLe a c := by
  obtain ⟨x, hx⟩ := Option.isSome_iff_exists.mp ha
  obtain ⟨y, hy⟩ := Option.isSome_iff_exists.mp hb
  obtain ⟨z, hz⟩ := Option.isSome_iff_exists.mp hc
  unfold chargeLe chargeLt at h1 h2 ⊢
  rw [hx, hy] at h1
  rw [hy, hz] at h2
  rw [hx, hz]
  simp at h1 h2 ⊢
  exact le_trans h1 h2

/-- Helper: insertion preserves sortedness when all charges are non-NaN. -/
theorem insertByCharge_pairwise (x : RateQuote) (l : List RateQuote)
    (hall : ∀ q ∈ x :: l, q.totalCharge.isSome = true)
    (hl : l.Pairwise chargeLe) :
    (insertByCharge x l).Pairwise chargeLe := by
  induction l with
  | nil => simp [insertByCharge]
  | cons y ys ih =>
    rw [List.pairwise_cons] at hl
    obtain ⟨hy, hys⟩ := hl
    unfold insertByCharge
    by_cases h : chargeLt x y = true
    · rw [if_pos h, List.pairwise_cons]
      refine ⟨?_, by rw [List.pairwise_cons]; exact ⟨hy, hys⟩⟩
      intro z hz
      rcases List.mem_cons.mp hz with hz | hz
      · rw [hz]
        exact chargeLt_asymm x y h
      · have hxz : x.totalCharge.isSome = true := hall x (List.mem_cons_self _ _)
        have hyz : y.totalCharge.isSome = true :=
          hall y (List.mem_cons_of_mem x (List.mem_cons_self _ _))
        have hzz : z.totalCharge.isSome = true :=
          hall z (List.mem_cons_of_mem x (List.mem_cons_of_mem y hz))
        exact chargeLe_trans x y z hxz hyz hzz (chargeLt_asymm x y h) (hy z hz)
    · rw [if_neg h, List.pairwise_cons]
      refine ⟨?_, ?_⟩
      · intro z hz
        rcases List.mem_cons.mp ((insertByCharge_perm x ys).mem_iff.mp hz) with hz2 | hz2
        · rw [hz2]
          unfold chargeLe
          simpa using h
        · exact hy z hz2
      · refine ih ?_ hys
        intro q hq
        rcases List.mem_cons.mp hq with hq | hq
        · rw [hq]
          exact hall x (List.mem_cons_self _ _)
        · exact hall q (List.mem_cons_of_mem x (List.mem_cons_of_mem y hq))

/-- Helper: the sort output is sorted when all charges are non-NaN. -/
theorem sortByCharge_pairwise (l : List RateQuote)
    (hall : ∀ q ∈ l, q.totalCharge.isSome = true) :
    (sortByCharge l).Pairwise chargeLe := by
  induction l with
  | nil => simp [sortByCharge]
  | cons a l ih =>
    show (insertByCharge a (sortByCharge l)).Pairwise chargeLe
    refine insertByCharge_pairwise a (sortByCharge l) ?_
      (ih (fun q hq => hall q (List.mem_cons_of_mem a hq)))
    intro q hq
    rcases List.mem_cons.mp hq with hq | hq
    · rw [hq]
      exact hall a (List.mem_cons_self _ _)
    · exact hall q (List.mem_cons_of_mem a ((sortByCharge_perm l).mem_iff.mp hq))

/-- Helper: a list of all-failing outcomes contributes no quotes. -/
theorem allQuotesOf_eq_nil (outs : List (String × Except CarrierErr RateResponse))
    (h : ∀ o ∈ outs, ∃ e, o.2 = Except.error e) : allQuotesOf outs = [] := by
  induction outs with
  | nil => rfl
  | cons o os ih =>
    obtain ⟨e, he⟩ := h o (List.mem_cons_self _ _)
    have ih2 := ih (fun o2 ho2 => h o2 (List.mem_cons_of_mem o ho2))
    unfold allQuotesOf at ih2 ⊢
    rw [List.filterMap_cons]
    simp only [he, Except.toOption]
    exact ih2

/-- Helper: a list of all-succeeding outcomes contributes no errors. -/
theorem errorsOf_eq_nil (outs : List (String × Except CarrierErr RateResponse))
    (h : ∀ o ∈ outs, ∃ r, o.2 = Except.ok r) : errorsOf outs = [] := by
  induction outs with
  | nil => rfl
  | cons o os ih =>
    obtain ⟨r, hr⟩ := h o (List.mem_cons_self _ _)
    have ih2 := ih (fun o2 ho2 => h o2 (List.mem_cons_of_mem o ho2))
    unfold errorsOf at ih2 ⊢
    simp [List.filterMap_cons, hr, ih2]

/-- C9 counterexample: with carrier A succeeding with an empty quote list
and carrier B failing, getAllRates throws B's error even though a carrier
succeeded — the claim says any success makes it return the combined
(empty) quote list. -/
theorem getAllRates_empty_success_counterexample :
    getAllRates [(("A"), .ok { quotes := [], requestId := none }),
                 (("B"), .error (.authentication ("Authentication failed")))]
      = .error (.authentication ("Authentication failed")) ∧
    (Except.error (.authentication ("Authentication failed"))
        : Except CarrierErr RateResponse)
      ≠ .ok { quotes := [], requestId := none } :=
  ⟨rfl, fun h => Except.noConfusion h⟩

/-- C9 (amended): getAllRates throws the first failing carrier's error
whenever no quotes at all were collected and at least one carrier failed —
in particular when every carrier fails, but also when the only successful
carriers returned empty quote lists; whenever the collected quotes are
non-empty (and also when every carrier succeeds), it returns exactly those
quotes sorted by ascending totalCharge, silently dropping the failed
carriers' contributions. -/
theorem getAllRates_amended :
    (∀ (outs : List (String × Except CarrierErr RateResponse)) (name : String)
        (e : CarrierErr) (rest : List (String × CarrierErr)),
      allQuotesOf outs = [] → errorsOf outs = (name, e) :: rest →
      getAllRates outs = .error e) ∧
    (∀ (name : String) (e : CarrierErr)
        (rest : List (String × Except CarrierErr RateResponse)),
      (∀ o ∈ rest, ∃ e2, o.2 = Except.error e2) →
      getAllRates ((name, Except.error e) :: rest) = .error e) ∧
    (∀ outs : List (String × Except CarrierErr RateResponse),
      allQuotesOf outs ≠ [] →
      getAllRates outs
        = .ok { quotes := sortByCharge (allQuotesOf outs), requestId := none } ∧
      (sortByCharge (allQuotesOf outs)).Perm (allQuotesOf outs) ∧
      ((∀ q ∈ allQuotesOf outs, q.totalCharge.isSome = true) →
        (sortByCharge (allQuotesOf outs)).Pairwise chargeLe)) ∧
    (∀ outs : List (String × Except CarrierErr RateResponse),
      outs ≠ [] → (∀ o ∈ outs, ∃ r, o.2 = Except.ok r) →
      getAllRates outs
        = .ok { quotes := sortByCharge (allQuotesOf outs), requestId := none }) := by
  refine ⟨?_, ?_, ?_, ?_⟩
  · intro outs name e rest hq herr
    cases houts : outs with
    | nil =>
      rw [houts] at herr
      exact absurd herr (by unfold errorsOf; simp)
    | cons o os =>
      rw [houts] at hq herr
      unfold getAllRates
      rw [hq, herr]
  · intro name e rest hrest
    have hq : allQuotesOf ((name, Except.error e) :: rest) = [] := by
      refine allQuotesOf_eq_nil _ ?_
      intro o ho
      rcases List.mem_cons.mp ho with ho | ho
      · exact ⟨e, by rw [ho]⟩
      · exact hrest o ho
    have herr : errorsOf ((name, Except.error e) :: rest)
        = (name, e) :: errorsOf rest := by
      unfold errorsOf
      simp
    unfold getAllRates
    rw [hq, herr]
  · intro outs hq
    cases houts : outs with
    | nil => rw [houts] at hq; exact absurd rfl hq
    | cons o os =>
      rw [houts] at hq
      cases hqq : allQuotesOf (o :: os) with
      | nil => exact absurd hqq hq
      | cons q qs =>
        refine ⟨?_, sortByCharge_perm _, fun hall => sortByCharge_pairwise _ hall⟩
        unfold getAllRates
        rw [hqq]
  · intro outs hne hok
    cases houts : outs with
    | nil => exact absurd houts hne
    | cons o os =>
      rw [houts] at hok
      have herr : errorsOf (o :: os) = [] := errorsOf_eq_nil _ hok
      unfold getAllRates
      rw [herr]
      cases hqq : allQuotesOf (o :: os) <;> rfl

/-- C9 witness: the amended theorem applied to a pair whose first carrier
succeeds with zero quotes while the second fails (the mixed zero-quote
case: B's error is thrown), to the same pair in the other order (the
failing carrier first), to an all-failing pair (first error wins), and to
a mixed pair whose successful carrier has a non-empty quote list (quotes
returned sorted). -/
theorem getAllRates_amended_witness :
    getAllRates [(("A"), .ok { quotes := [], requestId := none }),
                 (("B"), .error (.carrierAPI ("Unknown error") 500))]
      = .error (.carrierAPI ("Unknown error") 500) ∧
    getAllRates [(("A"), .error (.network ("Network error - no response received"))),
                 (("B"), .ok { quotes := [], requestId := none })]
      = .error (.network ("Network error - no response received")) ∧
    getAllRates [(("A"), .error (.network ("Request timeout"))),
                 (("B"), .error (.authentication ("Authentication failed")))]
      = .error (.network ("Request timeout")) ∧
    getAllRates [(("A"), .ok
        { quotes := [{ carrier := "UPS", serviceLevel := "GROUND", serviceName := "Ground"
                       totalCharge := some 10, currency := "USD"
                       estimatedDeliveryDate := none, transitDays := none
                       guaranteedDelivery := false },
                     { carrier := "UPS", serviceLevel := "2ND_DAY_AIR", serviceName := "2nd Day"
                       totalCharge := some 7, currency := "USD"
                       estimatedDeliveryDate := none, transitDays := none
                       guaranteedDelivery := false }], requestId := none }),
      (("B"), .error (.authentication ("Authentication failed")))]
      = .ok { quotes := sortByCharge (allQuotesOf
          [(("A"), .ok
              { quotes := [{ carrier := "UPS", serviceLevel := "GROUND", serviceName := "Ground"
                             totalCharge := some 10, currency := "USD"
                             estimatedDeliveryDate := none, transitDays := none
                             guaranteedDelivery := false },
                           { carrier := "UPS", serviceLevel := "2ND_DAY_AIR", serviceName := "2nd Day"
                             totalCharge := some 7, currency := "USD"
                             estimatedDeliveryDate := none, transitDays := none
                             guaranteedDelivery := false }], requestId := none }),
           (("B"), .error (.authentication ("Authentication failed")))]), requestId := none } :=
  ⟨getAllRates_amended.1
      [(("A"), .ok { quotes := [], requestId := none }),
       (("B"), .error (.carrierAPI ("Unknown error") 500))]
      ("B") (.carrierAPI ("Unknown error") 500) [] rfl rfl,
   getAllRates_amended.1
      [(("A"), .error (.network ("Network error - no response received"))),
       (("B"), .ok { quotes := [], requestId := none })]
      ("A") (.network ("Network error - no response received")) [] rfl rfl,
   getAllRates_amended.2.1 ("A") (.network ("Request timeout"))
      [(("B"), .error (.authentication ("Authentication failed")))]
      (by
        intro o ho
        simp at ho
        exact ⟨.authentication ("Authentication failed"), by rw [ho]⟩),
   (getAllRates_amended.2.2.1 _ (by decide)).1⟩

/-- Helper: on a well-formed (or absent, or untruthy, or wrong-length)
arrival date the naive slicing and the validating parse produce the same
optional delivery date. -/
theorem dates_agree (rs : UPSRatedShipment) (hdate : DateOk rs) :
    naiveEstimatedDeliveryDate rs = bestEffortDeliveryDate rs := by
  unfold naiveEstimatedDeliveryDate bestEffortDeliveryDate
  cases ht : rs.TimeInTransit with
  | none =>
    have harr : arrivalDate rs = none := by simp [arrivalDate, ht]
    rw [harr]
  | some tit =>
    cases hea : tit.ServiceSummary.EstimatedArrival with
    | none =>
      have harr : arrivalDate rs = none := by simp [arrivalDate, ht, hea]
      simp [hea, harr]
    | some ea =>
      cases hd : ea.Arrival.Date with
      | none =>
        have harr : arrivalDate rs = none := by simp [arrivalDate, ht, hea, hd]
        simp [hea, hd, harr]
      | some d =>
        have harr : arrivalDate rs = some d := by simp [arrivalDate, ht, hea, hd]
        rw [harr]
        by_cases he : d.isEmpty = true
        · simp [hea, hd, he]
        · have he2 : d.isEmpty = false := by simpa using he
          obtain ⟨hlen, y, m, dd, hy, hm, hdd, hm1, hm2, hd1, hd2⟩ :=
            hdate d harr he2
          have hmonth : ¬(m < 1 ∨ m > 12) := by omega
          have hday : ¬(dd < 1 ∨ dd > 31) := by omega
          simp [hea, hd, he2, hlen, parseUPSDate, hy, hm, hdd, hmonth, hday,
            Except.toOption]

/-- Helper: the TimeInTransit transit-day extraction agrees between the two
mappers on valid (or absent/untruthy) inputs. -/
theorem transit_tit_agree (rs : UPSRatedShipment)
    (h : ∀ s, titDays rs = some s → s.isEmpty = false → TransitStrOk s) :
    naiveTransitDaysTit rs = bestEffortTransitDaysTit rs := by
  unfold naiveTransitDaysTit bestEffortTransitDaysTit
  cases ht : titDays rs with
  | none => rfl
  | some s =>
    by_cases he : s.isEmpty = true
    · simp [he]
    · have he2 : s.isEmpty = false := by simpa using he
      obtain ⟨k, hk, hk0⟩ := h s ht he2
      have hsp : safeParseInt (some s) ("transitDays") = .ok k := by
        simp only [safeParseInt, hk]
        simp [not_lt.mpr hk0]
      simp [he2, hsp, hk]

/-- Helper: the transit-day extraction agrees between the two mappers on
valid (or absent/untruthy) inputs. -/
theorem transits_agree (rs : UPSRatedShipment) (htr : TransitOk rs) :
    naiveTransitDays rs = bestEffortTransitDays rs := by
  obtain ⟨hgd, htit⟩ := htr
  unfold naiveTransitDays bestEffortTransitDays
  cases hg : gdDays rs with
  | none => exact transit_tit_agree rs htit
  | some s =>
    by_cases he : s.isEmpty = true
    · simp only [he, Bool.not_true, if_false]
      exact transit_tit_agree rs htit
    · have he2 : s.isEmpty = false := by simpa using he
      obtain ⟨k, hk, hk0⟩ := hgd s hg he2
      have hsp : safeParseInt (some s) ("transitDays") = .ok k := by
        simp only [safeParseInt, hk]
        simp [not_lt.mpr hk0]
      simp [he2, hsp, hk]

/-- C10 counterexample: a shipment with valid regular charges and service
code 13 — a key of the lookup table — is mapped to a quote (with the
non-enum level NEXT_DAY_AIR_SAVER) by the naive mapper but rejected with a
ValidationError by the validating mapper, so the two versions are not
equivalent on the claim's domain. -/
theorem mapper_equivalence_counterexample :
    UPS_SERVICE_CODES ("13") = some ("NEXT_DAY_AIR_SAVER") ∧
    naiveMapUPSRatedShipmentToQuote code13RatedShipment
      = .ok { carrier := "UPS", serviceLevel := "NEXT_DAY_AIR_SAVER"
              serviceName := "NEXT_DAY_AIR_SAVER"
              totalCharge := some (21/2), currency := "USD"
              estimatedDeliveryDate := none, transitDays := none
              guaranteedDelivery := false } ∧
    mapUPSRatedShipmentToQuote code13RatedShipment
      = .error (.validation ("Mapped service level is invalid: NEXT_DAY_AIR_SAVER")) := by
  refine ⟨rfl, ?_, ?_⟩
  · simp +decide [naiveMapUPSRatedShipmentToQuote, naiveTotalChargeStr, naiveCurrencyStr,
      naiveServiceLevel, naiveEstimatedDeliveryDate, naiveTransitDays, naiveTransitDaysTit,
      jsParseFloat, decPrefixVal, digitsVal, fracVal, truthyStr, jsOrStr,
      UPS_SERVICE_CODES, gdDays, titDays, code13RatedShipment]
    norm_num
  · simp +decide [mapUPSRatedShipmentToQuote, validateRatedShipmentCharges,
      extractMonetaryValue, extractCurrency, validateAndMapServiceLevel,
      safeParseFloat, jsParseFloat, decPrefixVal, digitsVal, fracVal,
      truthyStr, jsOrStr, UPS_SERVICE_CODES, validServiceLevels, code13RatedShipment]
    norm_num

/-- C10 (amended): the naive and the validating version of
mapUPSRatedShipmentToQuote return the same quote on every shipment whose
regular total-charges block is present and schema-valid, whose negotiated
block (when present) carries a schema-valid total charge, whose arrival
date (when present and truthy) is a well-formed 8-digit date, whose
transit-day fields (when present and truthy) are valid non-negative
integer strings, and — the amendment — whose service code not only is a
key of the lookup table but maps to a level of the domain enum, which
excludes exactly code 13. -/
theorem mapper_equivalence_amended (rs : UPSRatedShipment) (tc : UPSMonetary)
    (htc : rs.TotalCharges = some tc) (htcok : MonetaryBlockOk tc)
    (hneg : NegotiatedOk rs) (hsvc : ServiceLevelValidFor rs)
    (hdate : DateOk rs) (htr : TransitOk rs) :
    ∃ q, naiveMapUPSRatedShipmentToQuote rs = .ok q ∧
      mapUPSRatedShipmentToQuote rs = .ok q := by
  obtain ⟨lvl, htable, hcontains⟩ := hsvc
  have hsvcok : validateAndMapServiceLevel rs.Service.Code = .ok lvl := by
    simp only [validateAndMapServiceLevel, htable]
    simp only [hcontains, if_true]
  have hnlvl : naiveServiceLevel rs = lvl := by
    simp [naiveServiceLevel, htable]
  have hdates := dates_agree rs hdate
  have htrans := transits_agree rs htr
  cases hnegc : rs.NegotiatedRateCharges with
  | some n =>
    obtain ⟨ntc, hntc, hnok⟩ := hneg n hnegc
    obtain ⟨hne, ⟨v, hv, hv0⟩, hcc⟩ := hnok
    obtain ⟨hvrsc, hemv, hec⟩ := charges_negotiated rs n ntc v hnegc hntc hne hv hv0 hcc
    have hnaivemv : naiveTotalChargeStr rs = .ok ntc.MonetaryValue := by
      simp [naiveTotalChargeStr, hnegc, hntc, hne]
    have hnaivecc : naiveCurrencyStr rs = .ok ntc.CurrencyCode := by
      simp [naiveCurrencyStr, hnegc, hntc, length3_isEmpty_false _ hcc]
    refine ⟨{ carrier := "UPS", serviceLevel := lvl
              serviceName := (jsOrStr rs.Service.Description (some lvl)).getD lvl
              totalCharge := some v, currency := ntc.CurrencyCode
              estimatedDeliveryDate := bestEffortDeliveryDate rs
              transitDays := bestEffortTransitDays rs
              guaranteedDelivery := rs.GuaranteedDelivery.isSome }, ?_, ?_⟩
    · unfold naiveMapUPSRatedShipmentToQuote
      simp only [hnaivemv, hnaivecc, hnlvl, hv, hdates, htrans]
    · unfold mapUPSRatedShipmentToQuote
      simp only [hvrsc, hemv, hec, hsvcok]
  | none =>
    obtain ⟨hne, ⟨v, hv, hv0⟩, hcc⟩ := htcok
    obtain ⟨hvrsc, hemv, hec⟩ :=
      charges_regular rs tc v (Or.inl hnegc) htc hne hv hv0 hcc
    have hnaivemv : naiveTotalChargeStr rs = .ok tc.MonetaryValue := by
      simp [naiveTotalChargeStr, hnegc, htc]
    have hnaivecc : naiveCurrencyStr rs = .ok tc.CurrencyCode := by
      simp [naiveCurrencyStr, hnegc, htc]
    refine ⟨{ carrier := "UPS", serviceLevel := lvl
              serviceName := (jsOrStr rs.Service.Description (some lvl)).getD lvl
              totalCharge := some v, currency := tc.CurrencyCode
              estimatedDeliveryDate := bestEffortDeliveryDate rs
              transitDays := bestEffortTransitDays rs
              guaranteedDelivery := rs.GuaranteedDelivery.isSome }, ?_, ?_⟩
    · unfold naiveMapUPSRatedShipmentToQuote
      simp only [hnaivemv, hnaivecc, hnlvl, hv, hdates, htrans]
    · unfold mapUPSRatedShipmentToQuote
      simp only [hvrsc, hemv, hec, hsvcok]

/-- C10 witness: the two mappers agree on the mock Ground shipment. -/
theorem mapper_equivalence_amended_witness :
    ∃ q, naiveMapUPSRatedShipmentToQuote groundRatedShipment = .ok q ∧
      mapUPSRatedShipmentToQuote groundRatedShipment = .ok q :=
  mapper_equivalence_amended groundRatedShipment
    { CurrencyCode := "USD", MonetaryValue := "12.45" } rfl
    ⟨rfl,
     ⟨249/20,
      by simp +decide [jsParseFloat, decPrefixVal, digitsVal, fracVal]; norm_num,
      by norm_num⟩,
     rfl⟩
    (fun n hn => by
      cases hn
      exact ⟨{ CurrencyCode := "USD", MonetaryValue := "10.89" }, rfl,
        ⟨rfl,
         ⟨1089/100,
          by simp +decide [jsParseFloat, decPrefixVal, digitsVal, fracVal]; norm_num,
          by norm_num⟩,
         rfl⟩⟩)
    ⟨("GROUND"), rfl, rfl⟩
    (fun d hd hde => by
      cases hd
      exact ⟨rfl, 2024, 1, 25, rfl, rfl, rfl, by norm_num, by norm_num, by norm_num,
        by norm_num⟩)
    ⟨fun s hs hse => by
      cases hs
      exact ⟨3, rfl, by norm_num⟩,
     fun s hs hse => by
      cases hs
      exact ⟨3, rfl, by norm_num⟩⟩
